import Mathlib

/-!
Shallow embedding of the `dpypx` python package (client for the Python
Discord Pixels API), for checking its natural-language specification.

Conventions used throughout:
* Python `int` header values and durations are modelled as `Nat` (they come
  from decimal HTTP header strings and sleep durations).
* A Python attribute that may hold `None` is modelled as an `Option`.
* Python truthiness of such a field (`if self.cooldown_reset:`) is modelled
  by `truthy`: `None` and `0` are falsy, everything else truthy.
* Side effects are made explicit: `asyncio.sleep` calls are returned as a
  list of slept durations (in order), HTTP traffic as a list of events.
* Exceptions are modelled with `Except` / an `Option` error component.
-/

namespace Dpypx

/-- Python truthiness of an `int`-or-`None` value: `None` and `0` are falsy. -/
def truthy : Option Nat → Bool
  | none => false
  | some n => n != 0

/-! ## `ratelimits.py` — `RateLimitEndpoint` -/

/-- State of `RateLimitEndpoint` (`ratelimits.py`).  Fields and defaults as in
`RateLimitEndpoint.__init__`: `ratelimited = True`, `remaining = 1`,
`limit = None`, `reset = None`, `cooldown_reset = None`. -/
structure RateLimitEndpoint where
  ratelimited : Bool
  remaining : Nat
  limit : Option Nat
  reset : Option Nat
  cooldown_reset : Option Nat
deriving Repr, DecidableEq

/-- `RateLimitEndpoint.__init__`. -/
def RateLimitEndpoint.init : RateLimitEndpoint :=
  { ratelimited := true, remaining := 1, limit := none,
    reset := none, cooldown_reset := none }

/-- The response headers `RateLimitEndpoint.update` inspects.  A field is
`none` when the header key is absent.  Values are the `int(...)` conversions
the code performs. -/
structure Headers where
  cooldownReset : Option Nat
  requestsRemaining : Option Nat
  requestsLimit : Option Nat
  requestsReset : Option Nat
deriving Repr, DecidableEq

/-- Headers with every key absent. -/
def Headers.empty : Headers := ⟨none, none, none, none⟩

/-- Exceptions the Python code can raise while reading a headers dict:
`headers['Requests-Limit']` raises `KeyError` when absent, and
`int(None)` raises `TypeError`. -/
inductive PyError
  | keyError
  | typeError
deriving Repr, DecidableEq

/-- `RateLimitEndpoint.update(headers)`.  Returns the state after the
assignments that executed, plus the exception raised, if any (Python mutates
field by field, so on an exception the earlier assignments stick):

* `Cooldown-Reset` present: `remaining = 0`, `cooldown_reset = value`, return.
* `Requests-Remaining` absent: `ratelimited = False`, return.
* otherwise: `remaining = value`; then `limit = headers['Requests-Limit']`
  (`KeyError` when absent); then
  `reset = int(headers.get('Requests-Reset', self.reset))` (`TypeError` when
  the header is absent and `self.reset` is `None`).

Note the code never assigns `ratelimited = True` anywhere. -/
def RateLimitEndpoint.update (h : Headers) (s : RateLimitEndpoint) :
    RateLimitEndpoint × Option PyError :=
  match h.cooldownReset with
  | some c => ({ s with remaining := 0, cooldown_reset := some c }, none)
  | none =>
    match h.requestsRemaining with
    | none => ({ s with ratelimited := false }, none)
    | some n =>
      let s1 := { s with remaining := n }
      match h.requestsLimit with
      | none => (s1, some .keyError)
      | some l =>
        let s2 := { s1 with limit := some l }
        match h.requestsReset with
        | some r => ({ s2 with reset := some r }, none)
        | none =>
          match s.reset with
          | some r => ({ s2 with reset := some r }, none)
          | none => (s2, some .typeError)

/-- `RateLimitEndpoint.pause()`.  Returns the list of `asyncio.sleep`
durations performed (in order) and the state afterwards:

* `if self.cooldown_reset:` (truthy) — sleep it, set it to `None`, return;
* `if not self.ratelimited: return`;
* `if self.remaining: return` (truthy `int`);
* `if self.reset:` (truthy) — sleep it. -/
def RateLimitEndpoint.pause (s : RateLimitEndpoint) :
    List Nat × RateLimitEndpoint :=
  if truthy s.cooldown_reset then
    ([s.cooldown_reset.getD 0], { s with cooldown_reset := none })
  else if !s.ratelimited then ([], s)
  else if s.remaining != 0 then ([], s)
  else if truthy s.reset then ([s.reset.getD 0], s)
  else ([], s)

/-! ## `client.py` — `Client.send_request` / `Client.request`

The HTTP transport is modelled as a script: a list of `Response`s consumed
one per transport call.  All traffic of a single `request` call targets one
fixed endpoint, so the `RateLimiter`'s `defaultdict` entry for that endpoint
is threaded through directly (`RateLimiter.pause`/`update` delegate to the
`RateLimitEndpoint` of the endpoint key).  The limiter is modelled with no
save file configured (`RateLimiter.update`'s persistence branch is skipped);
the save-file path is modelled separately below. -/

/-- One HTTP response from the transport: its status code, the headers the
rate limiter inspects, and an opaque body identifier. -/
structure Response where
  status : Nat
  headers : Headers
  body : Nat
deriving Repr, DecidableEq

/-- Exceptions `Client.send_request` can raise (`errors.py`), plus a header
access error propagating out of `RateLimitEndpoint.update`. -/
inductive ClientError
  | methodNotAllowed
  | ratelimited
  | httpClient (code : Nat)
  | server
  | pyExc (e : PyError)
deriving Repr, DecidableEq

/-- Observable events of a `Client.request` call, in order: an
`asyncio.sleep` performed by `RateLimitEndpoint.pause`, a transport call
(`Client.send_request` reaching the HTTP session) with the response status,
or a `self.ratelimits.update(...)` invocation. -/
inductive Event
  | sleep (seconds : Nat)
  | send (status : Nat)
  | update
deriving Repr, DecidableEq

/-- `Client.send_request`: one transport call.  Mirrors the status
dispatch: `400 <= status < 500` raises `MethodNotAllowedError` (405),
`RatelimitedError` (429) or `HttpClientError`; `status >= 500` raises
`ServerError`; otherwise `self.ratelimits.update(endpoint, headers)` runs
(whose own exception would propagate) and the body is returned.  Returns
the events, the rate-limit state afterwards, and the result. -/
def Client.send_request (r : Response) (s : RateLimitEndpoint) :
    List Event × RateLimitEndpoint × Except ClientError Nat :=
  if 400 ≤ r.status ∧ r.status < 500 then
    if r.status = 405 then ([.send r.status], s, .error .methodNotAllowed)
    else if r.status = 429 then ([.send r.status], s, .error .ratelimited)
    else ([.send r.status], s, .error (.httpClient r.status))
  else if 500 ≤ r.status then ([.send r.status], s, .error .server)
  else
    match RateLimitEndpoint.update r.headers s with
    | (s', none) => ([.send r.status, .update], s', .ok r.body)
    | (s', some e) => ([.send r.status, .update], s', .error (.pyExc e))

/-- Result of a `Client.request` call: the returned body, a propagated
exception, or `exhausted` when the retry loop needs another transport call
but the script has run out (the loop would keep retrying). -/
inductive Outcome
  | success (body : Nat)
  | failure (e : ClientError)
  | exhausted
deriving Repr, DecidableEq

/-- `Client.request(..., ratelimit_after=after)`: the `while retry` loop.
Each iteration: `await self.ratelimits.pause(endpoint)` (always, before
sending); then `send_request`; a `RatelimitedError` sets `retry = True`,
success sets `retry = False`, any other exception propagates immediately;
then, when `ratelimit_after`, `pause` again.  Returns the event trace, the
final rate-limit state and the outcome. -/
def Client.request (after : Bool) :
    List Response → RateLimitEndpoint →
    List Event × RateLimitEndpoint × Outcome
  | [], s =>
    let (ps, s1) := s.pause
    (ps.map .sleep, s1, .exhausted)
  | r :: rest, s =>
    let (ps, s1) := s.pause
    let pre := ps.map Event.sleep
    match Client.send_request r s1 with
    | (sev, s2, .ok body) =>
      if after then
        let (ps2, s3) := s2.pause
        (pre ++ sev ++ ps2.map .sleep, s3, .success body)
      else
        (pre ++ sev, s2, .success body)
    | (sev, s2, .error .ratelimited) =>
      if after then
        let (ps2, s3) := s2.pause
        let (evs, s', out) := Client.request after rest s3
        (pre ++ sev ++ ps2.map .sleep ++ evs, s', out)
      else
        let (evs, s', out) := Client.request after rest s2
        (pre ++ sev ++ evs, s', out)
    | (sev, s2, .error e) => (pre ++ sev, s2, .failure e)

/-- `Client.put_pixel` / `Client.swap_pixels`: writes go through
`Client.request(..., ratelimit_after=True)`. -/
def Client.put_pixel (transport : List Response) (s : RateLimitEndpoint) :
    List Event × RateLimitEndpoint × Outcome :=
  Client.request true transport s

/-- `Client.get_pixel` / `get_canvas` / `get_canvas_size`: reads go through
`Client.request` with the default `ratelimit_after=False`. -/
def Client.get_request (transport : List Response) (s : RateLimitEndpoint) :
    List Event × RateLimitEndpoint × Outcome :=
  Client.request false transport s

/-- Number of transport calls recorded in an event trace. -/
def sendCount (evs : List Event) : Nat :=
  evs.countP fun e => match e with | .send _ => true | _ => false

/-- `true` when an `Event.sleep` occurs before the first `Event.send` of the
trace (i.e. the coordinator waited before sending). -/
def sleepBeforeFirstSend : List Event → Bool
  | [] => false
  | .sleep _ :: _ => true
  | .send _ :: _ => false
  | .update :: rest => sleepBeforeFirstSend rest

/-! ## `canvas.py` — `Pixel` and `Canvas`

Python strings are modelled as `List Char`, byte strings as `List Nat`. -/

/-- `Pixel`: an RGB triple.  `Pixel.__eq__` compares the triples, which is
structural equality here. -/
structure Pixel where
  red : Nat
  green : Nat
  blue : Nat
deriving Repr, DecidableEq

/-- Lowercase hex digit character for `n < 16`, as produced by Python's
`x` format type. -/
def hexDigitChar (n : Nat) : Char :=
  if n < 10 then Char.ofNat (48 + n) else Char.ofNat (87 + n)

/-- Hex digits of `n` in little-endian order (empty for 0); the first
argument is recursion fuel (`n` itself always suffices since `n / 16 < n`
for positive `n`). -/
def toHexRevAux : Nat → Nat → List Char
  | 0, _ => []
  | _ + 1, 0 => []
  | fuel + 1, n + 1 => hexDigitChar ((n + 1) % 16) :: toHexRevAux fuel ((n + 1) / 16)

/-- Hex digits of `n` in little-endian order (empty for 0). -/
def toHexRev (n : Nat) : List Char := toHexRevAux n n

/-- Python `f'{n:x}'`: lowercase hex representation with no prefix. -/
def pyHex (n : Nat) : List Char :=
  if n = 0 then ['0'] else (toHexRev n).reverse

/-- The `0>2` part of the format spec `0>2x`: pad on the left with `'0'` to
width 2. -/
def pad2 (l : List Char) : List Char :=
  if l.length < 2 then List.replicate (2 - l.length) '0' ++ l else l

/-- `Pixel.__str__`: `f'#{red:0>2x}{green:0>2x}{blue:0>2x}'`. -/
def Pixel.toStr (p : Pixel) : List Char :=
  '#' :: (pad2 (pyHex p.red) ++ pad2 (pyHex p.green) ++ pad2 (pyHex p.blue))

/-- `str.lstrip('#')`: drop all leading `'#'` characters. -/
def lstripHash : List Char → List Char
  | [] => []
  | c :: rest => if c = '#' then lstripHash rest else c :: rest

/-- Value of a single hex digit character, as accepted by `int(_, 16)`. -/
def hexVal (c : Char) : Option Nat :=
  if '0' ≤ c ∧ c ≤ '9' then some (c.toNat - 48)
  else if 'a' ≤ c ∧ c ≤ 'f' then some (c.toNat - 87)
  else if 'A' ≤ c ∧ c ≤ 'F' then some (c.toNat - 55)
  else none

/-- `int(s, 16)` applied to a slice `hex[i:i + 2]` (at most two characters;
`none` models the `ValueError` on an empty slice or a non-digit). -/
def parseHex2 : List Char → Option Nat
  | [c] => hexVal c
  | [c1, c2] =>
    match hexVal c1, hexVal c2 with
    | some a, some b => some (16 * a + b)
    | _, _ => none
  | _ => none

/-- `Pixel.from_hex`: strip leading `'#'`, then parse the slices
`hex[0:2]`, `hex[2:4]`, `hex[4:6]` with `int(_, 16)`. -/
def Pixel.from_hex (s : List Char) : Option Pixel :=
  match parseHex2 ((lstripHash s).take 2),
      parseHex2 (((lstripHash s).drop 2).take 2),
      parseHex2 (((lstripHash s).drop 4).take 2) with
  | some r, some g, some b => some ⟨r, g, b⟩
  | _, _, _ => none

/-- `CanvasFormatError` raised by `Canvas.__init__`, carrying the expected
and actual byte counts of its message. -/
inductive CanvasFormatError
  | mk (expected actual : Nat)
deriving Repr, DecidableEq

/-- The `pixels` list built by `Canvas.__init__`: one `Pixel` per 3-byte
chunk of the data (`Pixel(*data[start_idx:start_idx + 3])`).  A trailing
chunk shorter than 3 bytes would make the `Pixel` call raise in Python; it
is unreachable because the length check has already passed. -/
def toPixels : List Nat → List Pixel
  | r :: g :: b :: rest => ⟨r, g, b⟩ :: toPixels rest
  | _ => []

/-- `Canvas`: parsed size, row-major pixel grid and the raw bytes.  The
PIL image attribute is outside the model. -/
structure Canvas where
  width : Nat
  height : Nat
  grid : List (List Pixel)
  raw : List Nat
deriving Repr, DecidableEq

/-- `Canvas.__init__(size, data)`: raise `CanvasFormatError` unless
`len(data) == width * height * 3`, otherwise build `pixels` and slice it
into `height` rows of `width` (`pixels[row * width : (row + 1) * width]`). -/
def Canvas.init (size : Nat × Nat) (data : List Nat) :
    Except CanvasFormatError Canvas :=
  let w := size.1
  let h := size.2
  if w * h * 3 ≠ data.length then .error (.mk (w * h * 3) data.length)
  else
    let pixels := toPixels data
    .ok { width := w, height := h,
          grid := (List.range h).map fun row => (pixels.drop (row * w)).take w,
          raw := data }

/-- `Canvas.__getitem__((x, y))`: `self.grid[y][x]`.  `none` models the
`IndexError` on out-of-range coordinates (negative-index wrap-around is
outside the claims, which bound `0 ≤ x < width`, `0 ≤ y < height`). -/
def Canvas.getItem (c : Canvas) (x y : Nat) : Option Pixel :=
  (c.grid.get? y).bind fun row => row.get? x

/-! ## `autodraw.py` — `AutoDrawer`

The draw plan is the `grid` attribute: rows of `(colour, opaque-flag)`
cells, anchored at `(x0, y0)`.  The client is replaced by the event list of
issued `put_pixel` calls, and `get_canvas` by a fetch oracle indexed by the
number of `update_canvas` calls made so far: `fetch n = some c` means the
`n`-th fetch returns canvas `c`, `fetch n = none` models
`EndpointDisabledError` (the cached canvas is kept). -/

/-- The draw plan of `AutoDrawer`: top-left coordinates and the cell grid
(`(Pixel, alpha > 127)` pairs, as built by `load_image`/`load`). -/
structure AutoDrawer where
  x0 : Nat
  y0 : Nat
  grid : List (List (Pixel × Bool))
deriving Repr, DecidableEq

/-- `self.x1 = x + len(self.grid[0])` (an empty grid would raise in
`__init__`; `headD` gives width 0 there, outside the claims). -/
def AutoDrawer.x1 (d : AutoDrawer) : Nat := d.x0 + (d.grid.headD []).length

/-- `self.y1 = y + len(self.grid)`. -/
def AutoDrawer.y1 (d : AutoDrawer) : Nat := d.y0 + d.grid.length

/-- The grid cell consulted for canvas coordinates `(x, y)`:
`self.grid[y - self.y0][x - self.x0]`.  (All call sites iterate
`x0 ≤ x < x1`, `y0 ≤ y < y1`, where truncated subtraction agrees with
Python.) -/
def AutoDrawer.cellAt (d : AutoDrawer) (x y : Nat) : Option (Pixel × Bool) :=
  (d.grid.get? (y - d.y0)).bind fun row => row.get? (x - d.x0)

/-- `AutoDrawer._iter_coords(top_to_bottom)`: `(x, y)` over
`range(x0, x1) × range(y0, y1)`, x-major when `top_to_bottom` else
y-major. -/
def AutoDrawer.iter_coords (d : AutoDrawer) (ttb : Bool) :
    List (Nat × Nat) :=
  if ttb then
    (List.range' d.x0 (d.x1 - d.x0)).flatMap fun x =>
      (List.range' d.y0 (d.y1 - d.y0)).map fun y => (x, y)
  else
    (List.range' d.y0 (d.y1 - d.y0)).flatMap fun y =>
      (List.range' d.x0 (d.x1 - d.x0)).map fun x => (x, y)

/-- A `self.client.put_pixel(x, y, colour)` call issued by
`check_pixel`. -/
inductive DrawEvent
  | put (x y : Nat) (colour : Pixel)
deriving Repr, DecidableEq

/-- `IndexError` from an out-of-range `grid[...]` or `canvas[x, y]`
access. -/
inductive Crash
  | indexError
deriving Repr, DecidableEq

/-- `AutoDrawer.check_pixel(x, y)`: look up the plan cell; a non-opaque
cell is skipped (`return False`) before the canvas is consulted; then
`if self.canvas and self.canvas[x, y] == colour: return False` (a cached
`Canvas` object is always truthy, `None` is falsy); otherwise issue
`put_pixel` and `return True`.  Returns the flag and the issued calls. -/
def AutoDrawer.check_pixel (d : AutoDrawer) (canvas : Option Canvas)
    (x y : Nat) : Except Crash (Bool × List DrawEvent) :=
  match d.cellAt x y with
  | none => .error .indexError
  | some (colour, opaq) =>
    if opaq = false then .ok (false, [])
    else
      match canvas with
      | some c =>
        match c.getItem x y with
        | none => .error .indexError
        | some p =>
          if p = colour then .ok (false, [])
          else .ok (true, [.put x y colour])
      | none => .ok (true, [.put x y colour])

/-- `AutoDrawer.update_canvas()`: replace the cache with the fetched canvas,
or keep it on `EndpointDisabledError`.  Returns the new cache and fetch
counter. -/
def AutoDrawer.update_canvas (fetch : Nat → Option Canvas) (n : Nat)
    (cv : Option Canvas) : Option Canvas × Nat :=
  match fetch n with
  | some c => (some c, n + 1)
  | none => (cv, n + 1)

/-- The `for` loop of `AutoDrawer.draw`: `check_pixel` on each coordinate,
refetching the canvas after every actually drawn pixel.  Returns the
issued calls and the crash, if any (calls issued before a crash are
kept). -/
def AutoDrawer.drawGo (d : AutoDrawer) (fetch : Nat → Option Canvas) :
    List (Nat × Nat) → Option Canvas → Nat → List DrawEvent × Option Crash
  | [], _, _ => ([], none)
  | (x, y) :: rest, cv, n =>
    match d.check_pixel cv x y with
    | .error e => ([], some e)
    | .ok (drew, evs) =>
      if drew then
        (evs ++ (AutoDrawer.drawGo d fetch rest
            (AutoDrawer.update_canvas fetch n cv).1
            (AutoDrawer.update_canvas fetch n cv).2).1,
          (AutoDrawer.drawGo d fetch rest
            (AutoDrawer.update_canvas fetch n cv).1
            (AutoDrawer.update_canvas fetch n cv).2).2)
      else
        AutoDrawer.drawGo d fetch rest cv n

/-- `AutoDrawer.draw(top_to_bottom)`: one `update_canvas` (the cache starts
as `None`), then the coordinate loop. -/
def AutoDrawer.draw (d : AutoDrawer) (fetch : Nat → Option Canvas)
    (ttb : Bool) : List DrawEvent × Option Crash :=
  AutoDrawer.drawGo d fetch (d.iter_coords ttb)
    (AutoDrawer.update_canvas fetch 0 none).1
    (AutoDrawer.update_canvas fetch 0 none).2

/-- The inner `for` loop of `draw_and_fix`: stops (`break`) after the first
pixel actually drawn, refetching the canvas first.  Returns issued calls,
the `work_to_do` flag, the canvas cache and fetch counter, and any
crash. -/
def AutoDrawer.drawFixInner (d : AutoDrawer) (fetch : Nat → Option Canvas) :
    List (Nat × Nat) → Option Canvas → Nat →
    List DrawEvent × Bool × Option Canvas × Nat × Option Crash
  | [], cv, n => ([], false, cv, n, none)
  | (x, y) :: rest, cv, n =>
    match d.check_pixel cv x y with
    | .error e => ([], false, cv, n, some e)
    | .ok (drew, evs) =>
      if drew then
        (evs, true, (AutoDrawer.update_canvas fetch n cv).1,
          (AutoDrawer.update_canvas fetch n cv).2, none)
      else
        AutoDrawer.drawFixInner d fetch rest cv n

/-- `AutoDrawer.draw_and_fix(forever, top_to_bottom)`: the `while
work_to_do` loop, bounded by `fuel` outer iterations (the Python loop can
run forever).  Each iteration refetches the canvas, runs the inner loop,
and continues when work was done — or, with `forever`, also when none was
(after `asyncio.sleep(1)`, outside the model's events). -/
def AutoDrawer.draw_and_fix (d : AutoDrawer) (fetch : Nat → Option Canvas)
    (forever ttb : Bool) :
    Nat → Option Canvas → Nat → List DrawEvent × Option Crash
  | 0, _, _ => ([], none)
  | fuel + 1, cv, n =>
    match AutoDrawer.drawFixInner d fetch (d.iter_coords ttb)
        (AutoDrawer.update_canvas fetch n cv).1
        (AutoDrawer.update_canvas fetch n cv).2 with
    | (evs, work, cv2, n2, none) =>
      if work then
        (evs ++ (AutoDrawer.draw_and_fix d fetch forever ttb fuel cv2 n2).1,
          (AutoDrawer.draw_and_fix d fetch forever ttb fuel cv2 n2).2)
      else if forever then
        (evs ++ (AutoDrawer.draw_and_fix d fetch forever ttb fuel cv2 n2).1,
          (AutoDrawer.draw_and_fix d fetch forever ttb fuel cv2 n2).2)
      else (evs, none)
    | (evs, _, _, _, some e) => (evs, some e)

/-! ## `ratelimits.py` — `RateLimiter` construction and its save file

`RateLimiter.__init__(save_file)` calls `self.load()` when `save_file` is
truthy; `load` does `open(self.save_file)` and `json.load`, catching only
`FileNotFoundError`.  `Client.__init__` constructs
`ratelimits.RateLimiter(self)` — passing the `Client` instance itself as
the save file; `open()` raises `TypeError` on such an argument.  The file
system is an oracle from paths to file status. -/

/-- What `Client.__init__` passes as `save_file`: either a path string or
the `Client` object itself (always truthy either way except the empty
path). -/
inductive SaveArg
  | path (p : String)
  | clientObj
deriving Repr, DecidableEq

/-- One endpoint's entry of the JSON save data, as written by
`RateLimitEndpoint.dump` (`remaining`, `limit`, `reset`,
`cooldown_reset`). -/
structure EndpointDump where
  remaining : Nat
  limit : Option Nat
  reset : Option Nat
  cooldown_reset : Option Nat
deriving Repr, DecidableEq

/-- Status of a path in the file system: absent, present but unreadable,
or readable with `some` parsed JSON save data (`none` for malformed
JSON). -/
inductive FileStatus
  | missing
  | unreadable
  | readable (content : Option (List (String × EndpointDump)))
deriving Repr, DecidableEq

/-- Exceptions on the load path: `open()` / `json.load` failures. -/
inductive LoadError
  | fileNotFound
  | permissionError
  | typeError
  | jsonDecodeError
deriving Repr, DecidableEq

/-- Python `open(save_file)` followed by `json.load`: a non-path argument
raises `TypeError` regardless of the file system; a missing path raises
`FileNotFoundError`; an unreadable one `PermissionError`; malformed
contents raise `json.JSONDecodeError`. -/
def pyOpenJson (fs : String → FileStatus) :
    SaveArg → Except LoadError (List (String × EndpointDump))
  | .clientObj => .error .typeError
  | .path p =>
    match fs p with
    | .missing => .error .fileNotFound
    | .unreadable => .error .permissionError
    | .readable none => .error .jsonDecodeError
    | .readable (some entries) => .ok entries

/-- `RateLimitEndpoint.load(data)`: overwrite `remaining`, `limit`,
`reset`; `cooldown_reset = data.get('cooldown_reset', 0)`.  `ratelimited`
is untouched. -/
def RateLimitEndpoint.load (d : EndpointDump) (s : RateLimitEndpoint) :
    RateLimitEndpoint :=
  { s with remaining := d.remaining, limit := d.limit, reset := d.reset,
           cooldown_reset := some (d.cooldown_reset.getD 0) }

/-- State of a `RateLimiter`: the `defaultdict` of per-endpoint limiters
(total function with default `RateLimitEndpoint.init`), the configured save
file and the cached `save_data`. -/
structure RateLimiter where
  ratelimits : String → RateLimitEndpoint
  save_file : Option SaveArg
  save_data : Option (List (String × EndpointDump))

/-- `RateLimiter.load()`: `open` + `json.load`, populating each endpoint's
state from its entry; only `FileNotFoundError` is caught (leaving
`save_data = {}`), every other exception propagates. -/
def RateLimiter.load (fs : String → FileStatus) (rl : RateLimiter) :
    Except LoadError RateLimiter :=
  match rl.save_file with
  | none => .error .typeError
  | some arg =>
    match pyOpenJson fs arg with
    | .ok entries =>
      .ok { rl with
            save_data := some entries,
            ratelimits := fun ep =>
              match (entries.filter (fun e => e.1 == ep)).getLast? with
              | some (_, d) => RateLimitEndpoint.load d (rl.ratelimits ep)
              | none => rl.ratelimits ep }
    | .error .fileNotFound => .ok { rl with save_data := some [] }
    | .error e => .error e

/-- `RateLimiter.__init__(save_file)`: fresh `defaultdict`, then `load`
when `save_file` is truthy (the empty path string is falsy). -/
def RateLimiter.init (fs : String → FileStatus) (save_file : Option SaveArg) :
    Except LoadError RateLimiter :=
  let base : RateLimiter :=
    { ratelimits := fun _ => RateLimitEndpoint.init,
      save_file := save_file, save_data := none }
  match save_file with
  | none => .ok base
  | some (.path "") => .ok base
  | some _ => RateLimiter.load fs base

/-- The `self.ratelimits = ratelimits.RateLimiter(self)` line of
`Client.__init__`: the save file passed is the `Client` object itself. -/
def Client.initRatelimiter (fs : String → FileStatus) :
    Except LoadError RateLimiter :=
  RateLimiter.init fs (some .clientObj)

/-! ## Theorems -/

/-- C2: `RateLimitEndpoint.pause` returns immediately (no sleep, state
unchanged) when no cooldown is pending and `remaining > 0` or the endpoint
is known not rate-limited; with no cooldown pending, `ratelimited` and
`remaining == 0` it suspends for exactly `reset` seconds in total (a single
sleep when `reset ≠ 0`, none when `reset = 0`, matching a zero-second
suspension) leaving the state unchanged; and when a cooldown is active
(truthy) it suspends for exactly that many seconds and clears the cooldown
before returning. -/
theorem c2_pause_spec (s : RateLimitEndpoint) :
    (truthy s.cooldown_reset = false →
      (0 < s.remaining ∨ s.ratelimited = false) →
      s.pause = ([], s))
    ∧ (∀ r : Nat, truthy s.cooldown_reset = false → s.ratelimited = true →
      s.remaining = 0 → s.reset = some r →
      (s.pause.1.sum = r ∧ s.pause.2 = s))
    ∧ (∀ c : Nat, s.cooldown_reset = some c → c ≠ 0 →
      s.pause = ([c], { s with cooldown_reset := none })) := by
  refine ⟨?_, ?_, ?_⟩
  · intro ht hrem
    unfold RateLimitEndpoint.pause
    rw [ht]
    rcases hrem with h | h
    · have : (s.remaining != 0) = true := by simpa using Nat.pos_iff_ne_zero.mp h
      simp [this]
    · simp [h]
  · intro r ht hr hrem hrst
    unfold RateLimitEndpoint.pause
    rw [ht, hr, hrem]
    by_cases h0 : r = 0
    · simp [hrst, truthy, h0]
    · simp [hrst, truthy, h0]
  · intro c hc hc0
    unfold RateLimitEndpoint.pause
    simp [hc, truthy, hc0]

/-- Witness for C2 at concrete states: `remaining = 2` (no sleep),
`remaining = 0` with `reset = 4` (total sleep 4), and an active cooldown of
3 seconds (sleep 3, cooldown cleared). -/
theorem c2_pause_spec_witness :
    RateLimitEndpoint.pause ⟨true, 2, none, none, none⟩ =
      ([], ⟨true, 2, none, none, none⟩)
    ∧ ((RateLimitEndpoint.pause ⟨true, 0, some 10, some 4, none⟩).1.sum = 4
      ∧ (RateLimitEndpoint.pause ⟨true, 0, some 10, some 4, none⟩).2 =
        ⟨true, 0, some 10, some 4, none⟩)
    ∧ RateLimitEndpoint.pause ⟨false, 5, none, some 4, some 3⟩ =
      ([3], ⟨false, 5, none, some 4, none⟩) :=
  ⟨(c2_pause_spec _).1 rfl (Or.inl (by decide)),
   (c2_pause_spec _).2.1 4 rfl rfl rfl rfl,
   (c2_pause_spec _).2.2 3 rfl (by decide)⟩

/-- C3 counterexample: a response whose `Cooldown-Reset` header is `0` sets
`cooldown_reset` on the state, yet the next wait does *not* ignore
`remaining`/`reset_seconds`: it sleeps the `reset` value (5) and never
consumes the cooldown (Python truthiness skips a zero cooldown). -/
theorem c3_counterexample :
    (RateLimitEndpoint.update ⟨some 0, none, none, none⟩
        ⟨true, 3, some 10, some 5, none⟩).1.cooldown_reset = some 0
    ∧ (RateLimitEndpoint.update ⟨some 0, none, none, none⟩
        ⟨true, 3, some 10, some 5, none⟩).1.pause =
      ([5], (RateLimitEndpoint.update ⟨some 0, none, none, none⟩
        ⟨true, 3, some 10, some 5, none⟩).1) := by decide

/-- C3 (amended: precedence requires a *nonzero* cooldown): an update whose
response carries a `Cooldown-Reset` header records that value, and whenever
the recorded cooldown is nonzero the next wait ignores `remaining`,
`limit`, `reset` and `ratelimited` entirely — it sleeps exactly the
cooldown and clears it. -/
theorem c3_cooldown_precedence :
    (∀ (h : Headers) (s : RateLimitEndpoint) (c : Nat),
      h.cooldownReset = some c →
      (RateLimitEndpoint.update h s).1.cooldown_reset = some c)
    ∧ (∀ (rl : Bool) (rem : Nat) (lim rst : Option Nat) (c : Nat), c ≠ 0 →
      RateLimitEndpoint.pause ⟨rl, rem, lim, rst, some c⟩ =
        ([c], ⟨rl, rem, lim, rst, none⟩)) := by
  constructor
  · intro h s c hc
    unfold RateLimitEndpoint.update
    rw [hc]
  · intro rl rem lim rst c hc
    unfold RateLimitEndpoint.pause
    simp [truthy, hc]

/-- Witness for C3's amended theorem: a cooldown of 7 overrides
`remaining = 9`, `reset = 5`. -/
theorem c3_cooldown_precedence_witness :
    (RateLimitEndpoint.update ⟨some 7, none, none, none⟩
      RateLimitEndpoint.init).1.cooldown_reset = some 7
    ∧ RateLimitEndpoint.pause ⟨true, 9, some 10, some 5, some 7⟩ =
      ([7], ⟨true, 9, some 10, some 5, none⟩) :=
  ⟨c3_cooldown_precedence.1 _ _ 7 rfl,
   c3_cooldown_precedence.2 true 9 (some 10) (some 5) 7 (by decide)⟩

/-- C4 counterexample: after a response with no quota signal clears
`ratelimited`, a later update carrying a full quota signal
(`Requests-Remaining = 0`, `Requests-Limit = 10`, `Requests-Reset = 3`)
records the fields but does *not* mark the endpoint as rate-limited
(`update` never sets the flag back), so the subsequent wait is a no-op
instead of the 3-second suspension the claim implies. -/
theorem c4_counterexample :
    ((RateLimitEndpoint.update ⟨none, some 0, some 10, some 3⟩
      (RateLimitEndpoint.update Headers.empty RateLimitEndpoint.init).1).1.ratelimited
        = false)
    ∧ (RateLimitEndpoint.update ⟨none, some 0, some 10, some 3⟩
        (RateLimitEndpoint.update Headers.empty RateLimitEndpoint.init).1).1.remaining = 0
    ∧ (RateLimitEndpoint.update ⟨none, some 0, some 10, some 3⟩
        (RateLimitEndpoint.update Headers.empty RateLimitEndpoint.init).1).1.reset = some 3
    ∧ (RateLimitEndpoint.update ⟨none, some 0, some 10, some 3⟩
        (RateLimitEndpoint.update Headers.empty RateLimitEndpoint.init).1).1.pause =
      ([], (RateLimitEndpoint.update ⟨none, some 0, some 10, some 3⟩
        (RateLimitEndpoint.update Headers.empty RateLimitEndpoint.init).1).1) := by
  decide

/-- C4 (amended: the quota branch does not touch the rate-limited flag):
`update` applies its policy in priority order — a cooldown signal sets
`remaining = 0` and records `cooldown_seconds`; else an absent quota signal
clears `ratelimited` (making subsequent waits no-ops whenever no cooldown
is pending); else it records `remaining` and `limit`, records
`reset_seconds` from the header when present (keeping the previous value
otherwise), and leaves the `ratelimited` flag unchanged. -/
theorem c4_update_policy (h : Headers) (s : RateLimitEndpoint) :
    (∀ c, h.cooldownReset = some c →
      RateLimitEndpoint.update h s =
        ({ s with remaining := 0, cooldown_reset := some c }, none))
    ∧ (h.cooldownReset = none → h.requestsRemaining = none →
      RateLimitEndpoint.update h s = ({ s with ratelimited := false }, none)
      ∧ (truthy s.cooldown_reset = false →
        RateLimitEndpoint.pause { s with ratelimited := false } =
          ([], { s with ratelimited := false })))
    ∧ (∀ n l rr, h.cooldownReset = none → h.requestsRemaining = some n →
      h.requestsLimit = some l →
      (match h.requestsReset with
        | some v => some v
        | none => s.reset) = some rr →
      RateLimitEndpoint.update h s =
        ({ s with remaining := n, limit := some l, reset := some rr },
          none)) := by
  refine ⟨?_, ?_, ?_⟩
  · intro c hc
    unfold RateLimitEndpoint.update
    rw [hc]
  · intro hc hr
    constructor
    · unfold RateLimitEndpoint.update
      rw [hc, hr]
    · intro hcool
      unfold RateLimitEndpoint.pause
      simp only [hcool]
      simp
  · intro n l rr hc hr hl hrst
    unfold RateLimitEndpoint.update
    rw [hc, hr, hl]
    cases hv : h.requestsReset with
    | some v =>
      rw [hv] at hrst
      simp only at hrst
      simp [hrst.symm]
    | none =>
      rw [hv] at hrst
      simp only at hrst
      rw [hrst]

/-- Witness for C4's amended theorem at concrete inputs: a cooldown header,
an empty header set, and a full quota signal. -/
theorem c4_update_policy_witness :
    RateLimitEndpoint.update ⟨some 6, some 9, none, none⟩ RateLimitEndpoint.init =
      (⟨true, 0, none, none, some 6⟩, none)
    ∧ RateLimitEndpoint.update Headers.empty RateLimitEndpoint.init =
      (⟨false, 1, none, none, none⟩, none)
    ∧ RateLimitEndpoint.update ⟨none, some 4, some 8, some 2⟩ RateLimitEndpoint.init =
      (⟨true, 4, some 8, some 2, none⟩, none) :=
  ⟨(c4_update_policy _ _).1 6 rfl,
   ((c4_update_policy _ _).2.1 rfl rfl).1,
   (c4_update_policy _ _).2.2 4 8 2 rfl rfl rfl rfl⟩

/-- Header sets on which `RateLimitEndpoint.update` raises no exception
whatever the prior state. -/
def Headers.wellFormed (h : Headers) : Prop :=
  h.cooldownReset ≠ none ∨ h.requestsRemaining = none ∨
    (h.requestsLimit ≠ none ∧ h.requestsReset ≠ none)

instance (h : Headers) : Decidable h.wellFormed := by
  unfold Headers.wellFormed; infer_instance

theorem update_noError_of_wellFormed (h : Headers) (s : RateLimitEndpoint)
    (hw : h.wellFormed) : (RateLimitEndpoint.update h s).2 = none := by
  unfold RateLimitEndpoint.update
  rcases hw with hc | hr | ⟨hl, hrst⟩
  · cases hcd : h.cooldownReset
    · exact absurd hcd hc
    · rfl
  · cases hcd : h.cooldownReset
    · rw [hr]
    · rfl
  · cases hcd : h.cooldownReset
    · cases hrr : h.requestsRemaining
      · rfl
      · cases hll : h.requestsLimit
        · exact absurd hll hl
        · cases hrr2 : h.requestsReset
          · exact absurd hrr2 hrst
          · rfl
    · rfl

theorem sendCount_append (a b : List Event) :
    sendCount (a ++ b) = sendCount a + sendCount b :=
  List.countP_append _ _ _

theorem sendCount_nil : sendCount [] = 0 := rfl

theorem sendCount_send (k : Nat) (l : List Event) :
    sendCount (Event.send k :: l) = sendCount l + 1 := by
  simp [sendCount, List.countP_cons]

theorem sendCount_update (l : List Event) :
    sendCount (Event.update :: l) = sendCount l := by
  simp [sendCount, List.countP_cons]

theorem sendCount_sleep (k : Nat) (l : List Event) :
    sendCount (Event.sleep k :: l) = sendCount l := by
  simp [sendCount, List.countP_cons]

theorem sendCount_sleeps (l : List Nat) :
    sendCount (l.map Event.sleep) = 0 := by
  induction l with
  | nil => rfl
  | cons x xs ih => rw [List.map_cons, sendCount_sleep]; exact ih

theorem sendRequest_sendCount (r : Response) (s : RateLimitEndpoint) :
    sendCount (Client.send_request r s).1 = 1 := by
  unfold Client.send_request
  split_ifs <;>
    first
      | rfl
      | (rcases hu : RateLimitEndpoint.update r.headers s with ⟨s', e⟩
         cases e <;> rfl)

theorem sendRequest_429 (r : Response) (s : RateLimitEndpoint)
    (h : r.status = 429) :
    Client.send_request r s = ([.send 429], s, .error .ratelimited) := by
  unfold Client.send_request
  rw [h]
  norm_num

theorem sendRequest_ok (r : Response) (s : RateLimitEndpoint)
    (hs : r.status < 400) (hw : r.headers.wellFormed) :
    Client.send_request r s =
      ([.send r.status, .update],
        (RateLimitEndpoint.update r.headers s).1, .ok r.body) := by
  unfold Client.send_request
  have h1 : ¬(400 ≤ r.status ∧ r.status < 500) := by omega
  have h2 : ¬500 ≤ r.status := by omega
  rw [if_neg h1, if_neg h2]
  rcases hu : RateLimitEndpoint.update r.headers s with ⟨s', e⟩
  have hne := update_noError_of_wellFormed r.headers s hw
  rw [hu] at hne
  simp only at hne
  subst hne
  rfl

theorem sendRequest_not_ratelimited (r : Response) (s : RateLimitEndpoint)
    (h : r.status ≠ 429) :
    (Client.send_request r s).2.2 ≠ .error .ratelimited := by
  unfold Client.send_request
  by_cases h1 : 400 ≤ r.status ∧ r.status < 500
  · rw [if_pos h1]
    by_cases h2 : r.status = 405
    · rw [if_pos h2]; simp
    · rw [if_neg h2, if_neg h]; simp
  · rw [if_neg h1]
    by_cases h3 : 500 ≤ r.status
    · rw [if_pos h3]; simp
    · rw [if_neg h3]
      rcases hu : RateLimitEndpoint.update r.headers s with ⟨s', e⟩
      cases e <;> simp

theorem request_nil (after : Bool) (s : RateLimitEndpoint) :
    Client.request after [] s =
      (s.pause.1.map Event.sleep, s.pause.2, .exhausted) := rfl

theorem request_cons (after : Bool) (r : Response) (rest : List Response)
    (s : RateLimitEndpoint) :
    Client.request after (r :: rest) s =
      match Client.send_request r s.pause.2 with
      | (sev, s2, .ok body) =>
        if after then
          (s.pause.1.map Event.sleep ++ sev ++ s2.pause.1.map Event.sleep,
            s2.pause.2, .success body)
        else (s.pause.1.map Event.sleep ++ sev, s2, .success body)
      | (sev, s2, .error .ratelimited) =>
        if after then
          (s.pause.1.map Event.sleep ++ sev ++ s2.pause.1.map Event.sleep
              ++ (Client.request after rest s2.pause.2).1,
            (Client.request after rest s2.pause.2).2.1,
            (Client.request after rest s2.pause.2).2.2)
        else
          (s.pause.1.map Event.sleep ++ sev
              ++ (Client.request after rest s2).1,
            (Client.request after rest s2).2.1,
            (Client.request after rest s2).2.2)
      | (sev, s2, .error e) =>
        (s.pause.1.map Event.sleep ++ sev, s2, .failure e) := rfl

/-- C1 counterexample: a transport answering 429 (with a `Cooldown-Reset: 7`
header) and then 200.  The coordinator does *not* refresh the rate-limiter
state from the 429 response: the trace shows no sleep at all before the
retry, although the refreshed state would have imposed a 7-second wait
(`send_request` only calls `ratelimits.update` on statuses below 400). -/
theorem c1_counterexample :
    (Client.request false
      [⟨429, ⟨some 7, none, none, none⟩, 0⟩,
       ⟨200, ⟨none, some 1, some 10, some 5⟩, 1⟩]
      RateLimitEndpoint.init).1 = [.send 429, .send 200, .update]
    ∧ ((RateLimitEndpoint.update ⟨some 7, none, none, none⟩
        RateLimitEndpoint.init).1.pause).1 = [7] := by decide

/-- C1 (amended: the 429 response does not refresh rate-limiter state; the
retry re-applies the wait computed from the *existing* state):
(a) a transport returning 429 once and then 200 (with headers the update
accepts) yields exactly two transport calls and a success result;
(b) a first response of any status other than 429 yields exactly one
transport call (no retry);
(c) on a 429 the response's headers and body are ignored entirely — the
whole call behaves identically for any two 429 responses. -/
theorem c1_retry_behaviour :
    (∀ (after : Bool) (h1 h2 : Headers) (b1 b2 : Nat) (s : RateLimitEndpoint),
      h2.wellFormed →
      sendCount (Client.request after [⟨429, h1, b1⟩, ⟨200, h2, b2⟩] s).1 = 2
      ∧ (Client.request after [⟨429, h1, b1⟩, ⟨200, h2, b2⟩] s).2.2 =
          .success b2)
    ∧ (∀ (after : Bool) (r : Response) (rest : List Response)
        (s : RateLimitEndpoint), r.status ≠ 429 →
      sendCount (Client.request after (r :: rest) s).1 = 1)
    ∧ (∀ (after : Bool) (r r' : Response) (rest : List Response)
        (s : RateLimitEndpoint), r.status = 429 → r'.status = 429 →
      Client.request after (r :: rest) s =
        Client.request after (r' :: rest) s) := by
  refine ⟨?_, ?_, ?_⟩
  · intro after h1 h2 b1 b2 s hw
    have hone : ∀ s' : RateLimitEndpoint,
        sendCount (Client.request after [⟨200, h2, b2⟩] s').1 = 1
        ∧ (Client.request after [⟨200, h2, b2⟩] s').2.2 = .success b2 := by
      intro s'
      rw [request_cons, sendRequest_ok ⟨200, h2, b2⟩ s'.pause.2 (by norm_num) hw]
      cases after <;>
        simp [sendCount_append, sendCount_sleeps, sendCount_send,
          sendCount_update, sendCount_nil]
    rw [request_cons, sendRequest_429 ⟨429, h1, b1⟩ s.pause.2 rfl]
    cases after <;>
      simp [sendCount_append, sendCount_sleeps, sendCount_send,
        sendCount_update, sendCount_nil, (hone _).1, (hone _).2]
  · intro after r rest s h429
    rw [request_cons]
    rcases hsr : Client.send_request r s.pause.2 with ⟨sev, s2, res⟩
    have hc : sendCount sev = 1 := by
      have h := sendRequest_sendCount r s.pause.2
      rw [hsr] at h
      exact h
    have hnr := sendRequest_not_ratelimited r s.pause.2 h429
    rw [hsr] at hnr
    simp only at hnr
    cases res with
    | ok body =>
      cases after <;>
        simp [sendCount_append, sendCount_sleeps, hc]
    | error e =>
      cases e <;> simp_all [sendCount_append, sendCount_sleeps, hc]
  · intro after r r' rest s h1 h2
    rw [request_cons, sendRequest_429 r s.pause.2 h1]
    rw [request_cons, sendRequest_429 r' s.pause.2 h2]

/-- Witness for C1's amended theorem: the concrete 429-then-200 transport
gives two sends and success; a single 404 gives one send; two different
429 responses are indistinguishable. -/
theorem c1_retry_behaviour_witness :
    (sendCount (Client.request false
      [⟨429, ⟨some 7, none, none, none⟩, 0⟩,
       ⟨200, ⟨none, some 1, some 10, some 5⟩, 3⟩]
      RateLimitEndpoint.init).1 = 2
    ∧ (Client.request false
      [⟨429, ⟨some 7, none, none, none⟩, 0⟩,
       ⟨200, ⟨none, some 1, some 10, some 5⟩, 3⟩]
      RateLimitEndpoint.init).2.2 = .success 3)
    ∧ sendCount (Client.request false [⟨404, Headers.empty, 0⟩]
        RateLimitEndpoint.init).1 = 1
    ∧ Client.request true [⟨429, ⟨some 2, none, none, none⟩, 5⟩]
        RateLimitEndpoint.init =
      Client.request true [⟨429, ⟨none, some 3, some 4, some 5⟩, 6⟩]
        RateLimitEndpoint.init :=
  ⟨c1_retry_behaviour.1 false ⟨some 7, none, none, none⟩
      ⟨none, some 1, some 10, some 5⟩ 0 3 RateLimitEndpoint.init (by decide),
   c1_retry_behaviour.2.1 false ⟨404, Headers.empty, 0⟩ []
      RateLimitEndpoint.init (by decide),
   c1_retry_behaviour.2.2 true ⟨429, ⟨some 2, none, none, none⟩, 5⟩
      ⟨429, ⟨none, some 3, some 4, some 5⟩, 6⟩ [] RateLimitEndpoint.init
      rfl rfl⟩

/-- C5 counterexample: a write (`put_pixel`, i.e. `ratelimit_after=True`)
issued while the endpoint state has `remaining = 0`, `reset = 5` sleeps
*before* the transport call — the coordinator waits before every send, so
the specified "send first, wait only after" ordering does not hold. -/
theorem c5_counterexample :
    sleepBeforeFirstSend
      (Client.put_pixel [⟨200, ⟨none, some 1, some 10, some 5⟩, 0⟩]
        ⟨true, 0, some 10, some 5, none⟩).1 = true := by decide

/-- C5 (amended: writes wait both before and after): for a write
(`put_pixel`/`swap_pixels`, `ratelimit_after=True`) the coordinator first
applies the rate-limit wait, then sends, then updates the rate limiter from
the response, then waits again before returning; for a read it waits before
sending and returns right after the update, with no trailing wait. -/
theorem c5_request_ordering (r : Response) (s : RateLimitEndpoint)
    (hs : r.status < 400) (hw : r.headers.wellFormed) :
    (Client.put_pixel [r] s).1 =
      (s.pause.1.map Event.sleep) ++ [.send r.status, .update]
        ++ ((RateLimitEndpoint.update r.headers s.pause.2).1.pause.1.map
          Event.sleep)
    ∧ (Client.get_request [r] s).1 =
      (s.pause.1.map Event.sleep) ++ [.send r.status, .update] := by
  constructor
  · unfold Client.put_pixel
    rw [request_cons, sendRequest_ok r s.pause.2 hs hw]
    simp
  · unfold Client.get_request
    rw [request_cons, sendRequest_ok r s.pause.2 hs hw]
    simp

/-- Witness for C5's amended theorem at a concrete write and read. -/
theorem c5_request_ordering_witness :
    (Client.put_pixel [⟨200, ⟨none, some 1, some 10, some 5⟩, 0⟩]
      ⟨true, 0, some 10, some 5, none⟩).1 =
      ((RateLimitEndpoint.pause ⟨true, 0, some 10, some 5, none⟩).1.map
        Event.sleep) ++ [.send 200, .update]
        ++ ((RateLimitEndpoint.update ⟨none, some 1, some 10, some 5⟩
          (RateLimitEndpoint.pause ⟨true, 0, some 10, some 5, none⟩).2).1.pause.1.map
            Event.sleep)
    ∧ (Client.get_request [⟨200, ⟨none, some 1, some 10, some 5⟩, 0⟩]
      ⟨true, 0, some 10, some 5, none⟩).1 =
      ((RateLimitEndpoint.pause ⟨true, 0, some 10, some 5, none⟩).1.map
        Event.sleep) ++ [.send 200, .update] :=
  c5_request_ordering ⟨200, ⟨none, some 1, some 10, some 5⟩, 0⟩
    ⟨true, 0, some 10, some 5, none⟩ (by norm_num) (by decide)

theorem toPixels_get? :
    ∀ (i : Nat) (l : List Nat), 3 * i + 2 < l.length →
    (toPixels l).get? i =
      some ⟨l.getD (3 * i) 0, l.getD (3 * i + 1) 0, l.getD (3 * i + 2) 0⟩ := by
  intro i
  induction i with
  | zero =>
    intro l h
    rcases l with _ | ⟨a, l⟩
    · simp at h
    rcases l with _ | ⟨b, l⟩
    · simp at h
    rcases l with _ | ⟨c, l⟩
    · simp at h
    simp [toPixels]
  | succ i ih =>
    intro l h
    rcases l with _ | ⟨a, l⟩
    · simp at h
    rcases l with _ | ⟨b, l⟩
    · simp at h
    rcases l with _ | ⟨c, l⟩
    · simp at h
    have h' : 3 * i + 2 < l.length := by
      simp at h
      omega
    have hrec := ih l h'
    rw [show 3 * (i + 1) + 2 = 3 * i + 2 + 1 + 1 + 1 from by ring]
    rw [show 3 * (i + 1) + 1 = 3 * i + 1 + 1 + 1 + 1 from by ring]
    rw [show 3 * (i + 1) = 3 * i + 1 + 1 + 1 from by ring]
    simp only [toPixels, List.get?_cons_succ, List.getD_cons_succ]
    exact hrec

/-- C6: `Canvas` construction fails with the format error iff the buffer
length differs from `width * height * 3`; on a valid buffer, `canvas[x, y]`
(for `x < width`, `y < height`) is the pixel decoded from bytes
`[3*(y*width+x) : 3*(y*width+x)+3]`. -/
theorem c6_canvas_decode (w h : Nat) (data : List Nat) :
    (data.length ≠ w * h * 3 →
      Canvas.init (w, h) data = .error (.mk (w * h * 3) data.length))
    ∧ (data.length = w * h * 3 → ∃ c, Canvas.init (w, h) data = .ok c)
    ∧ (∀ (c : Canvas) (x y : Nat), Canvas.init (w, h) data = .ok c →
      x < w → y < h →
      c.getItem x y = some ⟨data.getD (3 * (y * w + x)) 0,
        data.getD (3 * (y * w + x) + 1) 0,
        data.getD (3 * (y * w + x) + 2) 0⟩) := by
  refine ⟨?_, ?_, ?_⟩
  · intro hne
    unfold Canvas.init
    dsimp only
    rw [if_pos (by omega)]
  · intro heq
    unfold Canvas.init
    dsimp only
    rw [if_neg (by omega)]
    exact ⟨_, rfl⟩
  · intro c x y hok hx hy
    unfold Canvas.init at hok
    dsimp only at hok
    by_cases hlen : w * h * 3 ≠ data.length
    · rw [if_pos hlen] at hok
      exact absurd hok (by simp)
    · rw [if_neg hlen] at hok
      have hc : c = ⟨w, h, (List.range h).map
          (fun row => ((toPixels data).drop (row * w)).take w), data⟩ := by
        exact (Except.ok.inj hok).symm
      subst hc
      have hbound : 3 * (y * w + x) + 2 < data.length := by
        have e1 : (y + 1) * w = y * w + w := by ring
        have h1 : y * w + x < (y + 1) * w := by omega
        have h2 : (y + 1) * w ≤ h * w := Nat.mul_le_mul_right w hy
        have h3 : y * w + x < h * w := by omega
        have e2 : w * h * 3 = 3 * (h * w) := by ring
        omega
      unfold Canvas.getItem
      simp only [List.get?_map, List.get?_range hy, Option.map_some',
        Option.some_bind]
      rw [List.get?_take hx, List.get?_drop]
      exact toPixels_get? (y * w + x) data hbound

/-- Witness for C6: a too-short buffer errors; on the 2×1 buffer
`[1,2,3,4,5,6]` the pixel at `(1, 0)` is bytes 3..5. -/
theorem c6_canvas_decode_witness :
    Canvas.init (2, 1) [0] = .error (.mk 6 1)
    ∧ (⟨2, 1, [[⟨1, 2, 3⟩, ⟨4, 5, 6⟩]], [1, 2, 3, 4, 5, 6]⟩ : Canvas).getItem 1 0 =
      some ⟨4, 5, 6⟩ :=
  ⟨(c6_canvas_decode 2 1 [0]).1 (by decide),
   (c6_canvas_decode 2 1 [1, 2, 3, 4, 5, 6]).2.2
     ⟨2, 1, [[⟨1, 2, 3⟩, ⟨4, 5, 6⟩]], [1, 2, 3, 4, 5, 6]⟩ 1 0
     rfl (by decide) (by decide)⟩

set_option maxRecDepth 4000 in
theorem pad2_pyHex :
    ∀ n, n < 256 →
      pad2 (pyHex n) = [hexDigitChar (n / 16), hexDigitChar (n % 16)] := by
  decide

set_option maxRecDepth 4000 in
theorem parseHex2_digits :
    ∀ n, n < 256 →
      parseHex2 [hexDigitChar (n / 16), hexDigitChar (n % 16)] = some n := by
  decide

theorem hexDigitChar_ne_hash : ∀ n, n < 16 → hexDigitChar n ≠ '#' := by
  decide

theorem lstripHash_hash (l : List Char) :
    lstripHash ('#' :: l) = lstripHash l := by
  simp [lstripHash]

theorem lstripHash_cons_ne (c : Char) (l : List Char) (h : c ≠ '#') :
    lstripHash (c :: l) = c :: l := by
  simp [lstripHash, h]

theorem take2_cons (a b : Char) (l : List Char) :
    List.take 2 (a :: b :: l) = [a, b] := rfl

theorem drop2_cons (a b : Char) (l : List Char) :
    List.drop 2 (a :: b :: l) = l := rfl

theorem drop4_cons (a b c d : Char) (l : List Char) :
    List.drop 4 (a :: b :: c :: d :: l) = l := rfl

/-- C9: for all `red`, `green`, `blue` in `[0, 255]`, rendering
`Pixel(red, green, blue)` as its hex string (`__str__`) and parsing it back
with `from_hex` returns a pixel structurally equal to the original. -/
theorem c9_hex_roundtrip (r g b : Nat)
    (hr : r ≤ 255) (hg : g ≤ 255) (hb : b ≤ 255) :
    Pixel.from_hex (Pixel.toStr ⟨r, g, b⟩) = some ⟨r, g, b⟩ := by
  have hA := pad2_pyHex r (by omega)
  have hB := pad2_pyHex g (by omega)
  have hC := pad2_pyHex b (by omega)
  have hne : hexDigitChar (r / 16) ≠ '#' :=
    hexDigitChar_ne_hash (r / 16) (by omega)
  unfold Pixel.toStr Pixel.from_hex
  rw [hA, hB, hC]
  simp only [List.cons_append, List.nil_append]
  rw [lstripHash_hash, lstripHash_cons_ne _ _ hne]
  simp only [take2_cons, drop2_cons, drop4_cons]
  rw [parseHex2_digits r (by omega), parseHex2_digits g (by omega),
    parseHex2_digits b (by omega)]

/-- Witness for C9 at `(255, 0, 171)`. -/
theorem c9_hex_roundtrip_witness :
    Pixel.from_hex (Pixel.toStr ⟨255, 0, 171⟩) = some ⟨255, 0, 171⟩ :=
  c9_hex_roundtrip 255 0 171 (by decide) (by decide) (by decide)

/-- A plan cell on which `check_pixel` against canvas `c` certainly skips
(no write, no crash): the cell exists and is non-opaque, or matches the
canvas pixel. -/
def skipCell (d : AutoDrawer) (c : Canvas) (x y : Nat) : Bool :=
  match d.cellAt x y with
  | none => false
  | some (col, opaq) => !opaq || (c.getItem x y == some col)

/-- A plan cell that agrees with canvas `c`: if it exists and is opaque,
the canvas holds exactly its colour. -/
def matchCell (d : AutoDrawer) (c : Canvas) (x y : Nat) : Bool :=
  match d.cellAt x y with
  | none => true
  | some (col, opaq) => !opaq || (c.getItem x y == some col)

theorem check_pixel_of_skip (d : AutoDrawer) (c : Canvas) (x y : Nat)
    (h : skipCell d c x y = true) :
    d.check_pixel (some c) x y = .ok (false, []) := by
  unfold skipCell at h
  unfold AutoDrawer.check_pixel
  split
  · rename_i heq
    rw [heq] at h
    simp at h
  · rename_i col opaq heq
    rw [heq] at h
    split
    · rfl
    · rename_i hopaq
      have hop : opaq = true := by
        cases opaq
        · exact absurd rfl hopaq
        · rfl
      subst hop
      simp at h
      simp [h]

theorem check_pixel_put_mem (d : AutoDrawer) (cv : Option Canvas)
    (x y x' y' : Nat) (q : Pixel) (res : Bool × List DrawEvent)
    (hres : d.check_pixel cv x' y' = .ok res)
    (hmem : DrawEvent.put x y q ∈ res.2) :
    x = x' ∧ y = y' ∧ d.cellAt x' y' = some (q, true) := by
  unfold AutoDrawer.check_pixel at hres
  split at hres
  · simp at hres
  · rename_i col opaq heq
    split at hres
    · injection hres with hres
      rw [← hres] at hmem
      simp at hmem
    · rename_i hopaq
      have hop : opaq = true := by
        cases opaq
        · exact absurd rfl hopaq
        · rfl
      subst hop
      split at hres
      · split at hres
        · simp at hres
        · rename_i p hp
          split at hres
          · injection hres with hres
            rw [← hres] at hmem
            simp at hmem
          · injection hres with hres
            rw [← hres] at hmem
            simp at hmem
            obtain ⟨hx, hy, hq⟩ := hmem
            exact ⟨hx, hy, by rw [heq, hq]⟩
      · injection hres with hres
        rw [← hres] at hmem
        simp at hmem
        obtain ⟨hx, hy, hq⟩ := hmem
        exact ⟨hx, hy, by rw [heq, hq]⟩

theorem check_pixel_of_diff (d : AutoDrawer) (c : Canvas) (x y : Nat)
    (q p : Pixel) (h1 : d.cellAt x y = some (q, true))
    (h2 : c.getItem x y = some p) (h3 : p ≠ q) :
    d.check_pixel (some c) x y = .ok (true, [.put x y q]) := by
  unfold AutoDrawer.check_pixel
  rw [h1]
  simp [h2, h3]

theorem drawGo_cons_crash (d : AutoDrawer) (fetch : Nat → Option Canvas)
    (x y : Nat) (rest : List (Nat × Nat)) (cv : Option Canvas) (n : Nat)
    (e : Crash) (h : d.check_pixel cv x y = .error e) :
    AutoDrawer.drawGo d fetch ((x, y) :: rest) cv n = ([], some e) := by
  unfold AutoDrawer.drawGo
  rw [h]

theorem drawGo_cons_nodraw (d : AutoDrawer) (fetch : Nat → Option Canvas)
    (x y : Nat) (rest : List (Nat × Nat)) (cv : Option Canvas) (n : Nat)
    (evs : List DrawEvent) (h : d.check_pixel cv x y = .ok (false, evs)) :
    AutoDrawer.drawGo d fetch ((x, y) :: rest) cv n =
      AutoDrawer.drawGo d fetch rest cv n := by
  simp only [AutoDrawer.drawGo, h]
  simp

theorem drawGo_cons_draw (d : AutoDrawer) (fetch : Nat → Option Canvas)
    (x y : Nat) (rest : List (Nat × Nat)) (cv : Option Canvas) (n : Nat)
    (evs : List DrawEvent) (h : d.check_pixel cv x y = .ok (true, evs)) :
    AutoDrawer.drawGo d fetch ((x, y) :: rest) cv n =
      (evs ++ (AutoDrawer.drawGo d fetch rest
          (AutoDrawer.update_canvas fetch n cv).1
          (AutoDrawer.update_canvas fetch n cv).2).1,
        (AutoDrawer.drawGo d fetch rest
          (AutoDrawer.update_canvas fetch n cv).1
          (AutoDrawer.update_canvas fetch n cv).2).2) := by
  simp only [AutoDrawer.drawGo, h]
  simp

theorem update_canvas_const (c : Canvas) (n : Nat) (cv : Option Canvas) :
    AutoDrawer.update_canvas (fun _ => some c) n cv = (some c, n + 1) := rfl

theorem drawGo_matches_nil (d : AutoDrawer) (c : Canvas) :
    ∀ (coords : List (Nat × Nat)) (n : Nat),
    (∀ xy ∈ coords, matchCell d c xy.1 xy.2 = true) →
    (AutoDrawer.drawGo d (fun _ => some c) coords (some c) n).1 = [] := by
  intro coords
  induction coords with
  | nil => intro n _; rfl
  | cons xy rest ih =>
    intro n hall
    obtain ⟨x, y⟩ := xy
    have hm := hall (x, y) (List.mem_cons_self _ _)
    unfold matchCell at hm
    rcases heq : d.cellAt x y with _ | ⟨col, opaq⟩
    · have hcheck : d.check_pixel (some c) x y = .error .indexError := by
        unfold AutoDrawer.check_pixel
        rw [heq]
      rw [drawGo_cons_crash d _ x y rest _ n .indexError hcheck]
    · rw [heq] at hm
      have hskip : skipCell d c x y = true := by
        unfold skipCell
        rw [heq]
        exact hm
      rw [drawGo_cons_nodraw d _ x y rest _ n []
        (check_pixel_of_skip d c x y hskip)]
      exact ih n fun xy hxy => hall xy (List.mem_cons_of_mem _ hxy)

theorem drawGo_skipAll (d : AutoDrawer) (c : Canvas) :
    ∀ (coords : List (Nat × Nat)) (n : Nat),
    (∀ xy ∈ coords, skipCell d c xy.1 xy.2 = true) →
    AutoDrawer.drawGo d (fun _ => some c) coords (some c) n = ([], none) := by
  intro coords
  induction coords with
  | nil => intro n _; rfl
  | cons xy rest ih =>
    intro n hall
    obtain ⟨x, y⟩ := xy
    rw [drawGo_cons_nodraw d _ x y rest _ n []
      (check_pixel_of_skip d c x y (hall (x, y) (List.mem_cons_self _ _)))]
    exact ih n fun xy hxy => hall xy (List.mem_cons_of_mem _ hxy)

theorem drawGo_one (d : AutoDrawer) (c : Canvas) (a b : Nat) (q : Pixel) :
    ∀ (coords : List (Nat × Nat)) (n : Nat),
    coords.count (a, b) = 1 →
    (∀ xy ∈ coords, xy ≠ (a, b) → skipCell d c xy.1 xy.2 = true) →
    d.check_pixel (some c) a b = .ok (true, [.put a b q]) →
    AutoDrawer.drawGo d (fun _ => some c) coords (some c) n =
      ([.put a b q], none) := by
  intro coords
  induction coords with
  | nil => intro n hcount; simp at hcount
  | cons xy rest ih =>
    intro n hcount hskip hcheck
    by_cases hxy : xy = (a, b)
    · subst hxy
      rw [drawGo_cons_draw d _ a b rest _ n [.put a b q] hcheck]
      have hzero : rest.count (a, b) = 0 := by
        rw [List.count_cons_self] at hcount
        omega
      have hrest :
          AutoDrawer.drawGo d (fun _ => some c) rest (some c) (n + 1) =
            ([], none) := by
        apply drawGo_skipAll d c rest (n + 1)
        intro xy hxy
        have hne : xy ≠ (a, b) := by
          intro hcontra
          subst hcontra
          exact absurd hxy (List.count_eq_zero.mp hzero)
        exact hskip xy (List.mem_cons_of_mem _ hxy) hne
      simp [update_canvas_const, hrest]
    · obtain ⟨x, y⟩ := xy
      rw [drawGo_cons_nodraw d _ x y rest _ n []
        (check_pixel_of_skip d c x y
          (hskip (x, y) (List.mem_cons_self _ _) hxy))]
      apply ih n _ (fun xy hxy2 hne => hskip xy (List.mem_cons_of_mem _ hxy2) hne)
        hcheck
      rwa [List.count_cons_of_ne (Ne.symm hxy)] at hcount

/-- C7: with a successfully fetched, unchanging canvas snapshot, `draw` on
a plan whose every cell agrees with the canvas (non-opaque cells agree
vacuously) issues zero `put_pixel` calls; on a plan whose iterated
coordinates contain exactly one cell — opaque, with a colour differing from
the canvas — that needs drawing, while every other coordinate is skipped,
it issues exactly one `put_pixel` call carrying that cell's coordinates and
colour. -/
theorem c7_draw_writes (d : AutoDrawer) (c : Canvas) (ttb : Bool) :
    ((∀ xy ∈ d.iter_coords ttb, matchCell d c xy.1 xy.2 = true) →
      (d.draw (fun _ => some c) ttb).1 = [])
    ∧ (∀ (a b : Nat) (q p : Pixel),
      (d.iter_coords ttb).count (a, b) = 1 →
      d.cellAt a b = some (q, true) →
      c.getItem a b = some p → p ≠ q →
      (∀ xy ∈ d.iter_coords ttb, xy ≠ (a, b) →
        skipCell d c xy.1 xy.2 = true) →
      (d.draw (fun _ => some c) ttb).1 = [.put a b q]) := by
  constructor
  · intro hall
    exact drawGo_matches_nil d c (d.iter_coords ttb) 1 hall
  · intro a b q p hcount hcell hget hpq hskip
    have hcheck := check_pixel_of_diff d c a b q p hcell hget hpq
    have hgo := drawGo_one d c a b q (d.iter_coords ttb) 1 hcount hskip hcheck
    exact congrArg Prod.fst hgo

/-- Witness for C7: a 2-cell plan (one matching opaque cell, one
transparent cell) issues no writes; a 1-cell plan differing from the canvas
issues exactly that write. -/
theorem c7_draw_writes_witness :
    ((⟨0, 0, [[(⟨1, 1, 1⟩, true), (⟨2, 2, 2⟩, false)]]⟩ : AutoDrawer).draw
      (fun _ => some ⟨2, 1, [[⟨1, 1, 1⟩, ⟨9, 9, 9⟩]], [1, 1, 1, 9, 9, 9]⟩)
      false).1 = []
    ∧ ((⟨0, 0, [[(⟨5, 5, 5⟩, true)]]⟩ : AutoDrawer).draw
      (fun _ => some ⟨1, 1, [[⟨1, 1, 1⟩]], [1, 1, 1]⟩) false).1 =
      [.put 0 0 ⟨5, 5, 5⟩] :=
  ⟨(c7_draw_writes ⟨0, 0, [[(⟨1, 1, 1⟩, true), (⟨2, 2, 2⟩, false)]]⟩
      ⟨2, 1, [[⟨1, 1, 1⟩, ⟨9, 9, 9⟩]], [1, 1, 1, 9, 9, 9]⟩ false).1
      (by decide),
   (c7_draw_writes ⟨0, 0, [[(⟨5, 5, 5⟩, true)]]⟩
      ⟨1, 1, [[⟨1, 1, 1⟩]], [1, 1, 1]⟩ false).2 0 0 ⟨5, 5, 5⟩ ⟨1, 1, 1⟩
      (by decide) (by decide) (by decide) (by decide) (by decide)⟩

theorem drawGo_put_mem (d : AutoDrawer) (fetch : Nat → Option Canvas)
    (x y : Nat) (q : Pixel) :
    ∀ (coords : List (Nat × Nat)) (cv : Option Canvas) (n : Nat),
    DrawEvent.put x y q ∈ (AutoDrawer.drawGo d fetch coords cv n).1 →
    d.cellAt x y = some (q, true) := by
  intro coords
  induction coords with
  | nil =>
    intro cv n h
    simp [AutoDrawer.drawGo] at h
  | cons xy rest ih =>
    intro cv n h
    obtain ⟨x', y'⟩ := xy
    rcases hcp : d.check_pixel cv x' y' with e | ⟨drew, evs⟩
    · rw [drawGo_cons_crash d fetch x' y' rest cv n e hcp] at h
      simp at h
    · cases drew with
      | false =>
        rw [drawGo_cons_nodraw d fetch x' y' rest cv n evs hcp] at h
        exact ih cv n h
      | true =>
        rw [drawGo_cons_draw d fetch x' y' rest cv n evs hcp] at h
        rcases List.mem_append.mp h with hin | hin
        · obtain ⟨hx, hy, hcell⟩ :=
            check_pixel_put_mem d cv x y x' y' q (true, evs) hcp hin
          subst hx
          subst hy
          exact hcell
        · exact ih _ _ hin

theorem drawFixInner_cons_crash (d : AutoDrawer)
    (fetch : Nat → Option Canvas) (x y : Nat) (rest : List (Nat × Nat))
    (cv : Option Canvas) (n : Nat) (e : Crash)
    (h : d.check_pixel cv x y = .error e) :
    AutoDrawer.drawFixInner d fetch ((x, y) :: rest) cv n =
      ([], false, cv, n, some e) := by
  unfold AutoDrawer.drawFixInner
  rw [h]

theorem drawFixInner_cons_nodraw (d : AutoDrawer)
    (fetch : Nat → Option Canvas) (x y : Nat) (rest : List (Nat × Nat))
    (cv : Option Canvas) (n : Nat) (evs : List DrawEvent)
    (h : d.check_pixel cv x y = .ok (false, evs)) :
    AutoDrawer.drawFixInner d fetch ((x, y) :: rest) cv n =
      AutoDrawer.drawFixInner d fetch rest cv n := by
  simp only [AutoDrawer.drawFixInner, h]
  simp

theorem drawFixInner_cons_draw (d : AutoDrawer)
    (fetch : Nat → Option Canvas) (x y : Nat) (rest : List (Nat × Nat))
    (cv : Option Canvas) (n : Nat) (evs : List DrawEvent)
    (h : d.check_pixel cv x y = .ok (true, evs)) :
    AutoDrawer.drawFixInner d fetch ((x, y) :: rest) cv n =
      (evs, true, (AutoDrawer.update_canvas fetch n cv).1,
        (AutoDrawer.update_canvas fetch n cv).2, none) := by
  simp only [AutoDrawer.drawFixInner, h]
  simp

theorem drawFixInner_put_mem (d : AutoDrawer) (fetch : Nat → Option Canvas)
    (x y : Nat) (q : Pixel) :
    ∀ (coords : List (Nat × Nat)) (cv : Option Canvas) (n : Nat),
    DrawEvent.put x y q ∈ (AutoDrawer.drawFixInner d fetch coords cv n).1 →
    d.cellAt x y = some (q, true) := by
  intro coords
  induction coords with
  | nil =>
    intro cv n h
    simp [AutoDrawer.drawFixInner] at h
  | cons xy rest ih =>
    intro cv n h
    obtain ⟨x', y'⟩ := xy
    rcases hcp : d.check_pixel cv x' y' with e | ⟨drew, evs⟩
    · rw [drawFixInner_cons_crash d fetch x' y' rest cv n e hcp] at h
      simp at h
    · cases drew with
      | false =>
        rw [drawFixInner_cons_nodraw d fetch x' y' rest cv n evs hcp] at h
        exact ih cv n h
      | true =>
        rw [drawFixInner_cons_draw d fetch x' y' rest cv n evs hcp] at h
        obtain ⟨hx, hy, hcell⟩ :=
          check_pixel_put_mem d cv x y x' y' q (true, evs) hcp h
        subst hx
        subst hy
        exact hcell

theorem draw_and_fix_put_mem (d : AutoDrawer) (fetch : Nat → Option Canvas)
    (forever ttb : Bool) (x y : Nat) (q : Pixel) :
    ∀ (fuel : Nat) (cv : Option Canvas) (n : Nat),
    DrawEvent.put x y q ∈
      (AutoDrawer.draw_and_fix d fetch forever ttb fuel cv n).1 →
    d.cellAt x y = some (q, true) := by
  intro fuel
  induction fuel with
  | zero =>
    intro cv n h
    simp [AutoDrawer.draw_and_fix] at h
  | succ fuel ih =>
    intro cv n h
    unfold AutoDrawer.draw_and_fix at h
    split at h
    · rename_i evs work cv2 n2 heq
      split at h
      · simp only [List.mem_append] at h
        rcases h with hin | hin
        · exact drawFixInner_put_mem d fetch x y q _ _ _ (by rw [heq]; exact hin)
        · exact ih cv2 n2 hin
      · split at h
        · simp only [List.mem_append] at h
          rcases h with hin | hin
          · exact drawFixInner_put_mem d fetch x y q _ _ _ (by rw [heq]; exact hin)
          · exact ih cv2 n2 hin
        · exact drawFixInner_put_mem d fetch x y q _ _ _ (by rw [heq]; exact h)
    · rename_i evs r1 r2 r3 e heq
      exact drawFixInner_put_mem d fetch x y q _ _ _ (by rw [heq]; exact h)

/-- C8: a plan cell marked non-opaque is never written: neither `draw` nor
`draw_and_fix` (any fetch oracle — canvas available or not, any canvas
content, any fuel/forever/order flags) ever issues a `put_pixel` call for
its coordinates. -/
theorem c8_transparent_never_written (d : AutoDrawer)
    (fetch : Nat → Option Canvas) (forever ttb : Bool) (fuel : Nat)
    (cv : Option Canvas) (n : Nat) (x y : Nat) (p q : Pixel)
    (h : d.cellAt x y = some (p, false)) :
    DrawEvent.put x y q ∉ (d.draw fetch ttb).1
    ∧ DrawEvent.put x y q ∉
      (AutoDrawer.draw_and_fix d fetch forever ttb fuel cv n).1 := by
  constructor
  · intro hmem
    have hcell := drawGo_put_mem d fetch x y q (d.iter_coords ttb) _ _ hmem
    rw [h] at hcell
    simp at hcell
  · intro hmem
    have hcell := draw_and_fix_put_mem d fetch forever ttb x y q fuel cv n hmem
    rw [h] at hcell
    simp at hcell

/-- Witness for C8: in a plan whose second cell is transparent, neither
strategy ever writes that cell (here with no canvas available at all). -/
theorem c8_transparent_never_written_witness :
    DrawEvent.put 1 0 ⟨2, 2, 2⟩ ∉
      ((⟨0, 0, [[(⟨1, 1, 1⟩, true), (⟨2, 2, 2⟩, false)]]⟩ : AutoDrawer).draw
        (fun _ => none) false).1
    ∧ DrawEvent.put 1 0 ⟨2, 2, 2⟩ ∉
      (AutoDrawer.draw_and_fix
        ⟨0, 0, [[(⟨1, 1, 1⟩, true), (⟨2, 2, 2⟩, false)]]⟩
        (fun _ => none) false false 2 none 0).1 :=
  c8_transparent_never_written
    ⟨0, 0, [[(⟨1, 1, 1⟩, true), (⟨2, 2, 2⟩, false)]]⟩
    (fun _ => none) false false 2 none 0 1 0 ⟨2, 2, 2⟩ ⟨2, 2, 2⟩ rfl

/-- C10 (code bug): for *every* file system, constructing a `Client`
fails on the rate-limiter load path.  `Client.__init__` passes the `Client`
object itself as the `RateLimiter` save file; `load()` calls `open()` on
it, which raises a `TypeError` that `load()` (catching only
`FileNotFoundError`) does not handle, so the claimed "construction is never
fatal because of the backing store" does not hold. -/
theorem c10_client_init_fails (fs : String → FileStatus) :
    Client.initRatelimiter fs = .error .typeError := rfl

/-- Witness for C10 on the empty file system. -/
theorem c10_client_init_fails_witness :
    Client.initRatelimiter (fun _ => .missing) = .error .typeError :=
  c10_client_init_fails (fun _ => .missing)

end Dpypx
